import Mathlib

set_option autoImplicit false

/-!
Verification development for the behavioral-design-patterns repository.

Part 1 embeds the Command-pattern text editor
(`src/command_textEditor.ts`): the `TextEditor` receiver, the
`TypeCommand` and `DeleteCommand` concrete commands, and the
`EditorInvoker` with its undo history.

Part 2 embeds the Chain-of-Responsibility login example
(`src/chainOfResponsibility_login.ts`): handler objects on a small heap
with `setNext` wiring, and the `handle` dispatch of the three concrete
handlers.

Buffers of the TypeScript editor are modelled as `List Char`; usernames,
passwords, roles and console messages as Lean `String`.  All definitions
are computable, so concrete runs evaluate by `rfl` or `decide`.
-/

namespace CommandTextEditor

/-- Contents of the `TextEditor` private `text` field, as a list of characters. -/
abbrev Buffer := List Char

/-- Embedding of `TextEditor.addText(newText)`: `this.text += newText`. -/
def addText (s : Buffer) (newText : Buffer) : Buffer :=
  s ++ newText

/-- Embedding of `TextEditor.deleteText(count)`: `this.text = this.text.slice(0, -count)`.
In JavaScript, `-0` equals `0`, so for `count = 0` this is `slice(0, 0)`, the
empty string; for `count > 0` it keeps the first `length - count` characters,
clamping at zero when `count` exceeds the length. -/
def deleteText (s : Buffer) (count : Nat) : Buffer :=
  if count = 0 then [] else s.take (s.length - count)

/-- Embedding of `currentText.slice(-this.count)` in `DeleteCommand.execute`:
for `count = 0` JavaScript evaluates `slice(-0) = slice(0)`, the whole string;
for `count > 0` it is the last `count` characters (all of them when `count`
exceeds the length). -/
def sliceFromEnd (s : Buffer) (count : Nat) : Buffer :=
  if count = 0 then s else s.drop (s.length - count)

/-- The two concrete command classes, by their constructor data:
`TypeCommand(editor, textToAdd)` and `DeleteCommand(editor, count)`.
The receiver reference is implicit (there is a single editor). -/
inductive Cmd where
  | type (textToAdd : Buffer)
  | delete (count : Nat)
  deriving DecidableEq, Repr

/-- A command as it sits in the invoker history after `execute()`:
a `DeleteCommand` has by then stored `deletedText`, the snapshot
`currentText.slice(-count)` taken during `execute()`. -/
inductive HistRec where
  | typeRec (textToAdd : Buffer)
  | deleteRec (count : Nat) (deletedText : Buffer)
  deriving DecidableEq, Repr

/-- Embedding of `execute()`: returns the new buffer together with the
executed-command record.
`TypeCommand.execute` performs `editor.addText(textToAdd)`;
`DeleteCommand.execute` stores `deletedText = currentText.slice(-count)`
and then performs `editor.deleteText(count)`. -/
def execCmd (s : Buffer) : Cmd → Buffer × HistRec
  | .type t => (addText s t, .typeRec t)
  | .delete n => (deleteText s n, .deleteRec n (sliceFromEnd s n))

/-- Embedding of `undo()` on an executed command.
`TypeCommand.undo` performs `editor.deleteText(textToAdd.length)`;
`DeleteCommand.undo` performs `editor.addText(deletedText)`. -/
def undoRec (s : Buffer) : HistRec → Buffer
  | .typeRec t => deleteText s t.length
  | .deleteRec _ d => addText s d

/-- State of the client: the receiver buffer plus the invoker history
(most recently executed command first, matching pop-from-the-end of the
TypeScript array). -/
structure InvokerState where
  buffer : Buffer
  history : List HistRec
  deriving DecidableEq, Repr

/-- Embedding of `EditorInvoker.executeCommand(command)`:
`command.execute()` then `this.history.push(command)`. -/
def executeCommand (st : InvokerState) (c : Cmd) : InvokerState :=
  { buffer := (execCmd st.buffer c).1
    history := (execCmd st.buffer c).2 :: st.history }

/-- Embedding of `EditorInvoker.undo()`: `this.history.pop()`; if a command
was popped, call its `undo()`, otherwise log "Nothing to undo".  The second
component is the console message, `none` when a command was undone. -/
def undoLast (st : InvokerState) : InvokerState × Option String :=
  match st.history with
  | [] => (st, some "Nothing to undo")
  | r :: h => ({ buffer := undoRec st.buffer r, history := h }, none)

/-- Run a list of commands through the invoker, in order. -/
def runCommands (st : InvokerState) (cs : List Cmd) : InvokerState :=
  cs.foldl executeCommand st

/-- Call the invoker undo `n` times in a row. -/
def undoTimes (st : InvokerState) : Nat → InvokerState
  | 0 => st
  | n + 1 => undoTimes (undoLast st).1 n

/-- Pure form of executing a command list: final buffer plus the history
records it leaves behind (most recent first). -/
def execList (s : Buffer) : List Cmd → Buffer × List HistRec
  | [] => (s, [])
  | c :: cs =>
    ((execList (execCmd s c).1 cs).1,
     (execList (execCmd s c).1 cs).2 ++ [(execCmd s c).2])

/-- Pure form of undoing a stack of history records, most recent first. -/
def undoList (s : Buffer) : List HistRec → Buffer
  | [] => s
  | r :: h => undoList (undoRec s r) h

/-- The buffer "Hello", used for concrete evaluations. -/
def helloBuf : Buffer := ['H', 'e', 'l', 'l', 'o']

end CommandTextEditor

namespace LoginChain

/-- One record of the fake user database in `UserExistsHandler`:
`{ password, role }`. -/
structure UserData where
  password : String
  role : String
  deriving DecidableEq, Repr

/-- Embedding of the `users` object of `UserExistsHandler`, as a lookup by
username: alice has password "1234" and role "admin", bob has password
"abcd" and role "user", everything else is absent. -/
def users (username : String) : Option UserData :=
  if username = "alice" then some ⟨"1234", "admin"⟩
  else if username = "bob" then some ⟨"abcd", "user"⟩
  else none

/-- A request object: the `username` and `password` the client supplies,
plus the `userData` field that `UserExistsHandler` may attach
(`none` models the field being absent). -/
structure Request where
  username : String
  password : String
  userData : Option UserData
  deriving DecidableEq, Repr

/-- Address of a handler object. -/
abbrev Addr := Nat

/-- The concrete handler classes: `UserExistsHandler`, `PasswordHandler`,
and `RoleHandler(requiredRole)`. -/
inductive HandlerKind where
  | userExists
  | passwordCheck
  | roleCheck (requiredRole : String)
  deriving DecidableEq, Repr

/-- A handler object: its class plus its `nextHandler` field
(`none` models `null`). -/
structure HObj where
  kind : HandlerKind
  next : Option Addr
  deriving DecidableEq, Repr

/-- Heap of handler objects, so that `setNext` mutation and aliasing of
handler references behave as in the TypeScript code. -/
def Heap := Addr → Option HObj

/-- The heap with no handlers allocated. -/
def emptyHeap : Heap := fun _ => none

/-- Allocate a handler object of class `k`; its `nextHandler` starts as `null`. -/
def alloc (heap : Heap) (a : Addr) (k : HandlerKind) : Heap :=
  fun x => if x = a then some ⟨k, none⟩ else heap x

/-- Embedding of `AbstractHandler.setNext(handler)`: store the argument as
the successor of the receiver `a` and return the argument (the returned
address is the second component). -/
def setNext (heap : Heap) (a b : Addr) : Heap × Addr :=
  (fun x => if x = a then (heap x).map (fun o => { o with next := some b }) else heap x, b)

/-- Outcomes that are not a normal return: `typeError` models the JavaScript
`TypeError` thrown when a property of `undefined` is read; `noFuel` only
bounds the recursion depth of the model (the source chain is finite and
acyclic, so enough fuel never reaches it). -/
inductive HErr where
  | typeError
  | noFuel
  deriving DecidableEq, Repr

/-- Embedding of `handle(request)` dispatched on the class of the handler at
address `a`.  Returns the request object as mutated so far together with the
list of console messages.
`UserExistsHandler`: stop with "User does not exist!" when the username is
not in `users`; otherwise attach `userData` and forward via the inherited
behavior.
`PasswordHandler`: read `request.userData` (a `TypeError` when absent), stop
with "Incorrect password!" on mismatch, otherwise forward.
`RoleHandler`: read `request.userData` (a `TypeError` when absent), stop with
"Access denied! Role is not valid." on role mismatch, otherwise log
"User successfully logged in!". -/
def handle (heap : Heap) : Nat → Addr → Request → Except HErr (Request × List String)
  | 0, _, _ => .error .noFuel
  | fuel + 1, a, req =>
    match heap a with
    | none => .error .typeError
    | some obj =>
      match obj.kind with
      | .userExists =>
        match users req.username with
        | none => .ok (req, ["User does not exist!"])
        | some d =>
          match obj.next with
          | none => .ok ({ req with userData := some d }, [])
          | some b => handle heap fuel b { req with userData := some d }
      | .passwordCheck =>
        match req.userData with
        | none => .error .typeError
        | some d =>
          if d.password ≠ req.password then .ok (req, ["Incorrect password!"])
          else
            match obj.next with
            | none => .ok (req, [])
            | some b => handle heap fuel b req
      | .roleCheck requiredRole =>
        match req.userData with
        | none => .error .typeError
        | some d =>
          if d.role ≠ requiredRole then .ok (req, ["Access denied! Role is not valid."])
          else .ok (req, ["User successfully logged in!"])

/-- Embedding of the base `AbstractHandler.handle(request)` with the
`nextHandler` field passed explicitly: forward the identical request when a
successor exists, otherwise do nothing. -/
def superHandle (heap : Heap) (fuel : Nat) (next : Option Addr) (req : Request) :
    Except HErr (Request × List String) :=
  match next with
  | none => .ok (req, [])
  | some b => handle heap fuel b req

/-- The three handler objects of the usage example, freshly constructed:
`userExists` at address 0, `passwordCheck` at address 1, and
`roleCheck = new RoleHandler("admin")` at address 2. -/
def heap0 : Heap :=
  alloc (alloc (alloc emptyHeap 0 .userExists) 1 .passwordCheck) 2 (.roleCheck "admin")

/-- First step of `userExists.setNext(passwordCheck).setNext(roleCheck)`. -/
def chainStep1 : Heap × Addr := setNext heap0 0 1

/-- Second step, called on the handler returned by the first `setNext`. -/
def chainStep2 : Heap × Addr := setNext chainStep1.1 chainStep1.2 2

/-- The wired chain of the usage example. -/
def chainHeap : Heap := chainStep2.1

/-- Address of the `userExists` head handler. -/
abbrev userExistsAddr : Addr := 0

/-- Address of the `passwordCheck` handler. -/
abbrev passwordAddr : Addr := 1

/-- Address of the `roleCheck` handler. -/
abbrev roleAddr : Addr := 2

end LoginChain

namespace CommandTextEditor

theorem deleteText_append_sliceFromEnd (s : Buffer) (n : Nat) :
    deleteText s n ++ sliceFromEnd s n = s := by
  unfold deleteText sliceFromEnd
  by_cases h : n = 0
  · simp [h]
  · simp [h, List.take_append_drop]

theorem length_deleteText_add_length_sliceFromEnd (s : Buffer) (n : Nat) :
    (deleteText s n).length + (sliceFromEnd s n).length = s.length := by
  have h := congrArg List.length (deleteText_append_sliceFromEnd s n)
  simpa [List.length_append] using h

theorem length_deleteText_le (s : Buffer) (n m : Nat)
    (h : s.length ≤ m + n) : (deleteText s n).length ≤ m := by
  unfold deleteText
  by_cases hn : n = 0
  · simp [hn]
  · simp only [hn, if_false, List.length_take]
    omega

theorem undoList_append (h₁ h₂ : List HistRec) (s : Buffer) :
    undoList s (h₁ ++ h₂) = undoList (undoList s h₁) h₂ := by
  induction h₁ generalizing s with
  | nil => rfl
  | cons r h ih => simp [undoList, ih]

/-- Core bound: after executing any command list and then undoing every
record it produced, the buffer is no longer than the starting buffer.
Equality can fail only through the `deleteText` zero-count behavior, which
only ever removes extra characters. -/
theorem length_undoList_execList_le (cs : List Cmd) : ∀ s : Buffer,
    (undoList (execList s cs).1 (execList s cs).2).length ≤ s.length := by
  induction cs with
  | nil => intro s; simp [execList, undoList]
  | cons c cs ih =>
    intro s
    have hstep :
        undoList (execList s (c :: cs)).1 (execList s (c :: cs)).2 =
          undoRec (undoList (execList (execCmd s c).1 cs).1
            (execList (execCmd s c).1 cs).2) (execCmd s c).2 := by
      simp [execList, undoList_append, undoList]
    rw [hstep]
    have hx := ih (execCmd s c).1
    cases c with
    | type t =>
      simp only [execCmd, addText] at hx ⊢
      simp only [undoRec]
      exact length_deleteText_le _ _ _ (by simpa [List.length_append] using hx)
    | delete n =>
      simp only [execCmd] at hx ⊢
      simp only [undoRec, addText, List.length_append]
      have hsum := length_deleteText_add_length_sliceFromEnd s n
      omega

theorem runCommands_eq_execList (cs : List Cmd) : ∀ (s : Buffer) (h₀ : List HistRec),
    runCommands ⟨s, h₀⟩ cs = ⟨(execList s cs).1, (execList s cs).2 ++ h₀⟩ := by
  induction cs with
  | nil => intro s h₀; simp [runCommands, execList]
  | cons c cs ih =>
    intro s h₀
    have h1 : runCommands ⟨s, h₀⟩ (c :: cs) =
        runCommands ⟨(execCmd s c).1, (execCmd s c).2 :: h₀⟩ cs := by
      simp [runCommands, executeCommand]
    rw [h1, ih]
    simp [execList]

theorem undoTimes_history_length (h : List HistRec) : ∀ s : Buffer,
    undoTimes ⟨s, h⟩ h.length = ⟨undoList s h, []⟩ := by
  induction h with
  | nil => intro s; rfl
  | cons r h ih =>
    intro s
    show undoTimes (undoLast ⟨s, r :: h⟩).1 h.length = _
    simp only [undoLast]
    exact ih (undoRec s r)

end CommandTextEditor

namespace CommandTextEditor

/-- C1: for every sequence of TypeCommand and DeleteCommand objects executed
through the invoker on a freshly constructed empty TextEditor buffer,
undoing every executed command in reverse order via the invoker undo
returns the buffer content to the empty string, including TypeCommands
with empty text and DeleteCommands whose count is zero or exceeds the
buffer length. -/
theorem c1_undo_all_returns_empty (cs : List Cmd) :
    (undoTimes (runCommands ⟨[], []⟩ cs)
      (runCommands ⟨[], []⟩ cs).history.length).buffer = [] := by
  rw [runCommands_eq_execList, List.append_nil]
  show (undoTimes ⟨(execList [] cs).1, (execList [] cs).2⟩
    (execList [] cs).2.length).buffer = []
  rw [undoTimes_history_length]
  show undoList (execList [] cs).1 (execList [] cs).2 = []
  have h := length_undoList_execList_le cs []
  simp only [List.length_nil, Nat.le_zero] at h
  exact List.length_eq_zero.mp h

/-- C2, evaluation at the failing input: `deleteText` with count 0 empties
the buffer "Hello" instead of leaving it unchanged, because
`slice(0, -0)` is `slice(0, 0)`. -/
theorem c2_deleteText_zero_empties :
    deleteText helloBuf 0 = [] ∧ helloBuf ≠ [] := by decide

/-- C3, evaluation at the failing input: a TypeCommand with empty text,
executed on the buffer "Hello" and then undone, leaves the buffer empty
rather than restoring "Hello", because its undo calls `deleteText(0)`. -/
theorem c3_empty_type_undo_clears :
    undoRec (execCmd helloBuf (Cmd.type [])).1 (execCmd helloBuf (Cmd.type [])).2 = []
      ∧ helloBuf ≠ [] := by decide

/-- C4: a DeleteCommand whose count strictly exceeds the buffer length
empties the buffer on execute, stores exactly the full pre-execute content
as the removed text, and its undo restores exactly the pre-execute
content. -/
theorem c4_delete_overlong_round_trip (s : Buffer) (n : Nat) (h : s.length < n) :
    execCmd s (Cmd.delete n) = ([], .deleteRec n s) ∧
      undoRec (execCmd s (Cmd.delete n)).1 (execCmd s (Cmd.delete n)).2 = s := by
  have hn : ¬ n = 0 := by omega
  have hz : s.length - n = 0 := by omega
  have h1 : execCmd s (Cmd.delete n) = ([], .deleteRec n s) := by
    simp [execCmd, deleteText, sliceFromEnd, hn, hz]
  refine ⟨h1, ?_⟩
  rw [h1]
  simp [undoRec, addText]

/-- Witness for C4 at the concrete buffer "ab" and count 5. -/
theorem c4_witness :
    (['a', 'b'] : Buffer).length < 5 ∧
      (execCmd ['a', 'b'] (Cmd.delete 5) = ([], .deleteRec 5 ['a', 'b']) ∧
        undoRec (execCmd ['a', 'b'] (Cmd.delete 5)).1
          (execCmd ['a', 'b'] (Cmd.delete 5)).2 = ['a', 'b']) :=
  ⟨by decide, c4_delete_overlong_round_trip ['a', 'b'] 5 (by decide)⟩

/-- C6: the invoker undo on an empty history does not change the state
(neither buffer nor history) and only reports "Nothing to undo". -/
theorem c6_undo_empty_history_noop (buf : Buffer) :
    undoLast ⟨buf, []⟩ = (⟨buf, []⟩, some "Nothing to undo") := rfl

/-- C8: for every buffer and count, one DeleteCommand execute followed by
its undo restores the buffer exactly; for count 0, execute empties the
buffer while storing the full prior content as the removed text. -/
theorem c8_delete_execute_undo_round_trip (s : Buffer) (n : Nat) :
    undoRec (execCmd s (Cmd.delete n)).1 (execCmd s (Cmd.delete n)).2 = s ∧
      (execCmd s (Cmd.delete 0)).1 = [] ∧
      (execCmd s (Cmd.delete 0)).2 = .deleteRec 0 s := by
  refine ⟨?_, by simp [execCmd, deleteText], by simp [execCmd, sliceFromEnd]⟩
  simp [execCmd, undoRec, addText, deleteText_append_sliceFromEnd]

end CommandTextEditor

namespace LoginChain

theorem chainHeap_userExists :
    chainHeap userExistsAddr = some ⟨.userExists, some passwordAddr⟩ := rfl

theorem chainHeap_password :
    chainHeap passwordAddr = some ⟨.passwordCheck, some roleAddr⟩ := rfl

theorem chainHeap_role :
    chainHeap roleAddr = some ⟨.roleCheck "admin", none⟩ := rfl

theorem handle_role_ne_typeError (fuel : Nat) (req : Request) (d : UserData)
    (hud : req.userData = some d) :
    handle chainHeap fuel roleAddr req ≠ .error .typeError := by
  cases fuel with
  | zero => simp [handle]
  | succ m =>
    simp only [handle, chainHeap_role, hud]
    split <;> simp

theorem handle_password_ne_typeError (fuel : Nat) (req : Request) (d : UserData)
    (hud : req.userData = some d) :
    handle chainHeap fuel passwordAddr req ≠ .error .typeError := by
  cases fuel with
  | zero => simp [handle]
  | succ m =>
    simp only [handle, chainHeap_password, hud]
    split
    · simp
    · exact handle_role_ne_typeError m req d hud

theorem handle_head_ne_typeError (fuel : Nat) (req : Request) :
    handle chainHeap fuel userExistsAddr req ≠ .error .typeError := by
  cases fuel with
  | zero => simp [handle]
  | succ m =>
    simp only [handle, chainHeap_userExists]
    cases hu : users req.username with
    | none => simp [hu]
    | some d =>
      simp only [hu]
      exact handle_password_ne_typeError m _ d rfl

theorem handle_role_frame (fuel : Nat) (req req1 : Request) (log : List String)
    (h : handle chainHeap fuel roleAddr req = .ok (req1, log)) : req1 = req := by
  cases fuel with
  | zero => simp [handle] at h
  | succ m =>
    simp only [handle, chainHeap_role] at h
    cases hud : req.userData with
    | none => simp [hud] at h
    | some d =>
      simp only [hud] at h
      split at h <;>
        (simp only [Except.ok.injEq, Prod.mk.injEq] at h; exact h.1.symm)

theorem handle_password_frame (fuel : Nat) (req req1 : Request) (log : List String)
    (h : handle chainHeap fuel passwordAddr req = .ok (req1, log)) : req1 = req := by
  cases fuel with
  | zero => simp [handle] at h
  | succ m =>
    simp only [handle, chainHeap_password] at h
    cases hud : req.userData with
    | none => simp [hud] at h
    | some d =>
      simp only [hud] at h
      split at h
      · simp only [Except.ok.injEq, Prod.mk.injEq] at h
        exact h.1.symm
      · exact handle_role_frame m req req1 log h

/-- C5: the wired chain `userExists.setNext(passwordCheck).setNext(roleCheck)`
with required role "admin" halts at the existence check for charlie
(adding no field), at the credential check for alice with a wrong password,
at the role check for bob with the right password, and reports success for
alice with password "1234". -/
theorem c5_login_chain_tests :
    handle chainHeap 10 userExistsAddr ⟨"charlie", "1234", none⟩ =
        .ok (⟨"charlie", "1234", none⟩, ["User does not exist!"]) ∧
      handle chainHeap 10 userExistsAddr ⟨"alice", "wrongpass", none⟩ =
        .ok (⟨"alice", "wrongpass", some ⟨"1234", "admin"⟩⟩, ["Incorrect password!"]) ∧
      handle chainHeap 10 userExistsAddr ⟨"bob", "abcd", none⟩ =
        .ok (⟨"bob", "abcd", some ⟨"abcd", "user"⟩⟩, ["Access denied! Role is not valid."]) ∧
      handle chainHeap 10 userExistsAddr ⟨"alice", "1234", none⟩ =
        .ok (⟨"alice", "1234", some ⟨"1234", "admin"⟩⟩, ["User successfully logged in!"]) :=
  ⟨rfl, rfl, rfl, rfl⟩

/-- C7: `setNext` stores its argument as the successor of the receiver and
returns the argument, so the fluent chain `a.setNext(b).setNext(c)` links
a to b and b to c and evaluates to c; and the base handle behavior forwards
the identical request to the successor when one exists and does nothing
otherwise. -/
theorem c7_setNext_contract (heap : Heap) (a b c : Addr) (oa ob : HObj)
    (fuel : Nat) (req : Request)
    (ha : heap a = some oa) (hb : heap b = some ob) (hab : a ≠ b) :
    (setNext heap a b).2 = b ∧
      (setNext (setNext heap a b).1 (setNext heap a b).2 c).2 = c ∧
      (setNext (setNext heap a b).1 (setNext heap a b).2 c).1 a =
        some { oa with next := some b } ∧
      (setNext (setNext heap a b).1 (setNext heap a b).2 c).1 b =
        some { ob with next := some c } ∧
      superHandle heap fuel (some b) req = handle heap fuel b req ∧
      superHandle heap fuel none req = .ok (req, []) := by
  refine ⟨rfl, rfl, ?_, ?_, rfl, rfl⟩
  · simp [setNext, ha, hab]
  · simp [setNext, hb, Ne.symm hab]

/-- Witness for C7 at the freshly allocated example handlers. -/
theorem c7_witness :
    heap0 0 = some ⟨.userExists, none⟩ ∧
      heap0 1 = some ⟨.passwordCheck, none⟩ ∧
      (0 : Addr) ≠ 1 ∧
      ((setNext heap0 0 1).2 = 1 ∧
        (setNext (setNext heap0 0 1).1 (setNext heap0 0 1).2 2).2 = 2 ∧
        (setNext (setNext heap0 0 1).1 (setNext heap0 0 1).2 2).1 0 =
          some ⟨.userExists, some 1⟩ ∧
        (setNext (setNext heap0 0 1).1 (setNext heap0 0 1).2 2).1 1 =
          some ⟨.passwordCheck, some 2⟩ ∧
        superHandle heap0 3 (some 1) ⟨"charlie", "1234", none⟩ =
          handle heap0 3 1 ⟨"charlie", "1234", none⟩ ∧
        superHandle heap0 3 none ⟨"charlie", "1234", none⟩ =
          .ok (⟨"charlie", "1234", none⟩, [])) :=
  ⟨rfl, rfl, by decide,
    c7_setNext_contract heap0 0 1 2 ⟨.userExists, none⟩ ⟨.passwordCheck, none⟩ 3
      ⟨"charlie", "1234", none⟩ rfl rfl (by decide)⟩

/-- C9: the password and role handlers read `request.userData`
unconditionally, so a direct `handle` call on either of them with a bare
request (no `userData` field) raises a runtime TypeError instead of
reporting a validation failure, while any invocation through the chain
head never raises a TypeError. -/
theorem c9_missing_userData_type_error (fuel : Nat) (u p : String) (req : Request) :
    handle chainHeap (fuel + 1) passwordAddr ⟨u, p, none⟩ = .error .typeError ∧
      handle chainHeap (fuel + 1) roleAddr ⟨u, p, none⟩ = .error .typeError ∧
      handle chainHeap fuel userExistsAddr req ≠ .error .typeError :=
  ⟨rfl, rfl, handle_head_ne_typeError fuel req⟩

/-- C10: a request processed by the three-handler chain keeps its username
and password unchanged, and the only mutation is the `userData` field,
set by the existence check exactly when the username is in the user
database. -/
theorem c10_chain_frame (fuel : Nat) (req req1 : Request) (log : List String)
    (h : handle chainHeap fuel userExistsAddr req = .ok (req1, log)) :
    req1.username = req.username ∧ req1.password = req.password ∧
      (req1.userData = req.userData ∨
        ∃ d, users req.username = some d ∧ req1.userData = some d) := by
  cases fuel with
  | zero => simp [handle] at h
  | succ m =>
    simp only [handle, chainHeap_userExists] at h
    cases hu : users req.username with
    | none =>
      simp only [hu, Except.ok.injEq, Prod.mk.injEq] at h
      obtain ⟨h1, -⟩ := h
      subst h1
      simp
    | some d =>
      simp only [hu] at h
      have h2 := handle_password_frame m _ req1 log h
      subst h2
      refine ⟨rfl, rfl, Or.inr ?_⟩
      exact ⟨d, rfl, rfl⟩

/-- Witness for C10 at the successful alice login. -/
theorem c10_witness :
    (⟨"alice", "1234", some ⟨"1234", "admin"⟩⟩ : Request).username =
        (⟨"alice", "1234", none⟩ : Request).username ∧
      (⟨"alice", "1234", some ⟨"1234", "admin"⟩⟩ : Request).password =
        (⟨"alice", "1234", none⟩ : Request).password ∧
      ((⟨"alice", "1234", some ⟨"1234", "admin"⟩⟩ : Request).userData =
          (⟨"alice", "1234", none⟩ : Request).userData ∨
        ∃ d, users (⟨"alice", "1234", none⟩ : Request).username = some d ∧
          (⟨"alice", "1234", some ⟨"1234", "admin"⟩⟩ : Request).userData = some d) :=
  c10_chain_frame 10 ⟨"alice", "1234", none⟩
    ⟨"alice", "1234", some ⟨"1234", "admin"⟩⟩
    ["User successfully logged in!"] rfl

end LoginChain
